import Mathlib

/-!
# Racer: leaderboard, traffic cars, stage controller and button control

A shallow embedding of `internal/game/game.go`, `internal/cargenerator/car.go` and
`internal/game/button_control.go`, followed by the properties proved about it.

Conventions of the embedding:
* Go `int` values are `Int` (only comparisons and small additions occur, no overflow);
* Go `float64` coordinates are exact rationals `ℚ`: the code only adds, compares and converts
  small integers, and the properties below speak about exactly those operations;
* a Go slice is a `List`; a function that mutates its receiver returns the new value;
* a call that ends the process (`os.Exit`, `log.Fatalf`) or panics makes the embedded function
  return `none`.
-/

namespace Racer

/-! ## Leaderboard: `preparePlayerRatings` (game.go) -/

/-- Modelled from the spec: package `statisticer` is not among the sources. A record is a player
name together with a points value (`Record: {name, points}`); game.go reads the fields `Name`
and `Points`. -/
structure Record where
  Name : String
  Points : Int
deriving DecidableEq, Repr

/-- Modelled from the spec: `statisticer.NewRecord(name, points)` builds the record holding
exactly that name and those points. -/
def NewRecord (name : String) (points : Int) : Record :=
  { Name := name, Points := points }

/-- The scan of `preparePlayerRatings`:
`for _, record := range records { if playerPoints > record.Points { isRecord = true; break } }`,
started with `isRecord = false`. -/
def isRecordLoop (playerPoints : Int) : List Record → Bool
  | [] => false
  | record :: rest =>
    if playerPoints > record.Points then true else isRecordLoop playerPoints rest

/-- Inner loop of the insertion sort of Go's package `sort`:
`for j := i; j > a && less(j, j-1); j-- { swap(j, j-1) }`.
The already processed part of the slice is passed reversed (its last element first); the new
element `x` moves left past every neighbour `y` with `less x y` and stops at the first
neighbour for which `less` fails. -/
def insertLeft {α : Type} (less : α → α → Bool) (x : α) : List α → List α
  | [] => [x]
  | y :: ys => if less x y then y :: insertLeft less x ys else x :: y :: ys

/-- Go's `insertionSort_func`, which is what `sort.Slice` runs on a slice of at most twelve
elements (`for i := a + 1; i < b; i++ { inner loop }`): the elements are taken from left to
right and each one is moved left into the part before it. -/
def insertionSort_func {α : Type} (less : α → α → Bool) (data : List α) : List α :=
  (data.foldl (fun done x => insertLeft less x done) []).reverse

/-- The comparison closure handed to `sort.Slice`:
`records[i].Points > records[j].Points`. -/
def lessByPoints (a b : Record) : Bool :=
  decide (a.Points > b.Points)

/-- The function `preparePlayerRatings` of game.go, with the sorting routine called at
`sort.Slice(records, less)` as the argument `sortSlice`. -/
def preparePlayerRatingsWith (sortSlice : (Record → Record → Bool) → List Record → List Record)
    (records : List Record) (playerName : String) (playerPoints : Int) : List Record × Bool :=
  if records.length = 0 then
    (records ++ [NewRecord playerName playerPoints], true)
  else
    let isRecord := isRecordLoop playerPoints records
    let isRecord := if records.length < 10 then true else isRecord
    if !isRecord then
      (records, false)
    else
      let records := records ++ [NewRecord playerName playerPoints]
      let records := sortSlice lessByPoints records
      let records := if records.length > 10 then records.take 10 else records
      (records, true)

/-- The function `preparePlayerRatings` as it runs on a leaderboard of at most ten records: the
slice given to `sort.Slice` then has at most eleven elements, for which Go's `sort.Slice` is the
insertion sort `insertionSort_func`. -/
def preparePlayerRatings (records : List Record) (playerName : String) (playerPoints : Int) :
    List Record × Bool :=
  preparePlayerRatingsWith insertionSort_func records playerName playerPoints

/-- Non-increasing order of points. -/
def SortedByPoints (records : List Record) : Prop :=
  records.Pairwise (fun a b => a.Points ≥ b.Points)

instance (records : List Record) : Decidable (SortedByPoints records) := by
  unfold SortedByPoints; infer_instance

/-- A full leaderboard used in the examples: ten records with points 100, 90, ..., 10. -/
def sampleFull : List Record :=
  [NewRecord "a" 100, NewRecord "b" 90, NewRecord "c" 80, NewRecord "d" 70, NewRecord "e" 60,
   NewRecord "f" 50, NewRecord "g" 40, NewRecord "h" 30, NewRecord "i" 20, NewRecord "j" 10]

/-! ## Traffic cars: `internal/cargenerator/car.go` -/

/-- Modelled from the spec: package `rectangle` is not among the sources. A rectangle is an
axis-aligned box `{x, y, width, height}`; car.go reads and writes its fields `X` and `Y`. -/
structure Rectangle where
  X : ℚ
  Y : ℚ
  Width : ℚ
  Height : ℚ
deriving DecidableEq

/-- What car.go uses of an `*ebiten.Image`: the size of its bounds. -/
structure Image where
  Dx : Int
  Dy : Int
deriving DecidableEq

/-- The struct `Car`; the embedded `*rectangle.Rectangle` is the parent structure, so that
`car.X` and `car.Y` read as in the source. -/
structure Car extends Rectangle where
  screenHeight : ℚ
  startRoad : ℚ
  image : Image
deriving DecidableEq

/-- The method `Car.Update`. The two results of `rand.IntN(400)` and `rand.IntN(5)` are the
arguments `randY` and `randLane`; `rand.IntN(n)` returns a value in `[0, n)`. The `switch` has
no default case, so a lane number outside `0..4` would leave `X` as it is. -/
def Car.Update (car : Car) (scrollSpeed : ℚ) (randY : Fin 400) (randLane : Fin 5) : Car :=
  let car := { car with Y := car.Y + scrollSpeed }
  if car.Y > car.screenHeight then
    let car := { car with Y := (((randY.val : Int) - 930 : Int) : ℚ) }
    match randLane.val with
    | 0 => { car with X := car.startRoad + 65 }
    | 1 => { car with X := car.startRoad + 265 }
    | 2 => { car with X := car.startRoad + 465 }
    | 3 => { car with X := car.startRoad + 655 }
    | 4 => { car with X := car.startRoad + 855 }
    | _ => car
  else
    car

/-- The method `Car.Reset`. -/
def Car.Reset (car : Car) : Car :=
  { car with Y := -500 }

/-- A car used in the examples: road origin 400, viewport height 1080, on the third lane. -/
def sampleCar : Car :=
  { X := 865, Y := 1075, Width := 110, Height := 220, screenHeight := 1080, startRoad := 400,
    image := { Dx := 110, Dy := 220 } }

/-! ## Button control: `internal/game/button_control.go` -/

/-- What button_control.go uses of an ebitenui `*widget.Button` (a library type): the calls
`Focus(bool)` made on it. A button is represented by the arguments of the `Focus` calls it has
received so far, oldest first. -/
structure Button where
  focusCalls : List Bool
deriving DecidableEq

/-- The call `button.Focus(focused)`. -/
def Button.Focus (b : Button) (focused : Bool) : Button :=
  { focusCalls := b.focusCalls ++ [focused] }

/-- The struct `ButtonControl`. -/
structure ButtonControl where
  buttons : List Button
  currentButtonIndex : Int
deriving DecidableEq

/-- The statement `buttons[i].Focus(focused)`: an index outside the slice panics (`none`). -/
def focusAt (buttons : List Button) (i : Int) (focused : Bool) : Option (List Button) :=
  if 0 ≤ i ∧ i < (buttons.length : Int) then
    some (buttons.modify (fun b => b.Focus focused) i.toNat)
  else
    none

/-- The function `NewButtonControl`. -/
def NewButtonControl (buttons : List Button) : Option ButtonControl :=
  match focusAt buttons 0 true with
  | none => none
  | some buttons => some { buttons := buttons, currentButtonIndex := 0 }

/-- The type `Stage` with its six constants. -/
inductive Stage where
  | GameStage
  | GameOverStage
  | MainMenuStage
  | MenuStage
  | StatisticsStage
  | SetPlayerRecordStage
deriving DecidableEq, Repr

/-- The six keys for which `addEvents` registers handlers (`ebiten.KeyRight`, ...). -/
inductive Key where
  | KeyRight
  | KeyLeft
  | KeyUp
  | KeyDown
  | KeyEscape
  | KeyEnter
deriving DecidableEq, Repr

/-- Modelled from the spec: the packages `player`, `cargenerator.CarGenerator`, `background`,
`menu`, `textfield` and `statisticer` that game.go calls are not among the sources, and
`sort.Slice` is library code. Their state types and the methods game.go calls on them are the
fields of this structure; the functions of game.go below are written for an arbitrary value of
it, so whatever is proved about them holds for every behaviour of these collaborators.
* `playerRectangle p` is `player.Rectangle` (its `X`, `Y` are `player.X`, `player.Y`);
  `playerPoints p` is `int(player.Points())`;
* `carsUpdate speed draws`, `carsReset`, `carsCollision` are the methods of the car pool;
  `draws` supplies the results of `rand.IntN`;
* `menuClick m` is `ClickActiveButton`: the new menu state and the index, among the three
  `ButtonOptions` given to `NewMenu`, of the button whose `Action` it runs (if any);
* `textUpdate typed`, `load` and `save` return `none` when the Go call returns an error. -/
structure Parts where
  Player : Type
  Cars : Type
  Background : Type
  Menu : Type
  TextField : Type
  Statisticer : Type
  playerRectangle : Player → Rectangle
  playerMove : Key → Player → Player
  playerUpdate : Player → Player
  playerReset : Player → Player
  playerName : Player → String
  playerSetName : String → Player → Player
  playerPoints : Player → Int
  carsCollision : Cars → Rectangle → Bool
  carsUpdate : ℚ → (Nat → Fin 400 × Fin 5) → Cars → Cars
  carsReset : Cars → Cars
  backgroundUpdate : ℚ → Background → Background
  menuBefore : Menu → Menu
  menuNext : Menu → Menu
  menuClick : Menu → Menu × Option (Fin 3)
  textFocus : TextField → TextField
  textUpdate : String → TextField → Option TextField
  textText : TextField → String
  load : Statisticer → Option (List Record)
  save : List Record → Statisticer → Option Statisticer
  sortSlice : (Record → Record → Bool) → List Record → List Record

/-- The struct `Game` (the fields that `Update` and the handlers read or write). `globalTime` is
a clock reading in nanoseconds. `stageWrites` is not a field of the Go struct: it counts the
assignments to `game.stage` executed so far. -/
structure Game (π : Parts) where
  width : ℚ
  height : ℚ
  globalTime : Int
  scrollSpeed : ℚ
  player : π.Player
  background : π.Background
  cars : π.Cars
  stage : Stage
  mainMenu : π.Menu
  menu : π.Menu
  statisticer : π.Statisticer
  textField : π.TextField
  stageWrites : Nat

/-- The assignment `game.stage = s`. -/
def Game.setStage {π : Parts} (g : Game π) (s : Stage) : Game π :=
  { g with stage := s, stageWrites := g.stageWrites + 1 }

/-- The handler registered by `AddPressEvent(ebiten.KeyRight, ...)`. -/
def Game.pressRight {π : Parts} (g : Game π) : Game π :=
  match g.stage with
  | .GameStage =>
    if (π.playerRectangle g.player).X < g.width / 2 + 370 then
      { g with player := π.playerMove .KeyRight g.player }
    else g
  | _ => g

/-- The handler registered by `AddPressEvent(ebiten.KeyLeft, ...)`. -/
def Game.pressLeft {π : Parts} (g : Game π) : Game π :=
  match g.stage with
  | .GameStage =>
    if (π.playerRectangle g.player).X > g.width / 2 - 480 then
      { g with player := π.playerMove .KeyLeft g.player }
    else g
  | _ => g

/-- The handler registered by `AddPressEvent(ebiten.KeyUp, ...)`. -/
def Game.pressUp {π : Parts} (g : Game π) : Game π :=
  match g.stage with
  | .GameStage =>
    if (π.playerRectangle g.player).Y > 0 then
      { g with player := π.playerMove .KeyUp g.player }
    else g
  | _ => g

/-- The handler registered by `AddPressedEvent(ebiten.KeyUp, ...)`. -/
def Game.pressedUp {π : Parts} (g : Game π) : Game π :=
  match g.stage with
  | .MainMenuStage => { g with mainMenu := π.menuBefore g.mainMenu }
  | .MenuStage => { g with menu := π.menuBefore g.menu }
  | _ => g

/-- The handler registered by `AddPressEvent(ebiten.KeyDown, ...)`. -/
def Game.pressDown {π : Parts} (g : Game π) : Game π :=
  match g.stage with
  | .GameStage =>
    if (π.playerRectangle g.player).Y < g.height - 250 then
      { g with player := π.playerMove .KeyDown g.player }
    else g
  | _ => g

/-- The handler registered by `AddPressedEvent(ebiten.KeyDown, ...)`. -/
def Game.pressedDown {π : Parts} (g : Game π) : Game π :=
  match g.stage with
  | .MainMenuStage => { g with mainMenu := π.menuNext g.mainMenu }
  | .MenuStage => { g with menu := π.menuNext g.menu }
  | _ => g

/-- The handler registered by `AddPressEvent(ebiten.KeyEscape, ...)`. -/
def Game.pressEscape {π : Parts} (g : Game π) : Game π :=
  match g.stage with
  | .GameStage => g.setStage .MenuStage
  | .StatisticsStage => g.setStage .MainMenuStage
  | _ => g

/-- The `Action` closures of the three buttons of the main menu built in `NewGame`:
"New game", "Player ratings", "Exit" (`os.Exit(0)`, the process ends). -/
def Game.mainMenuAction {π : Parts} (g : Game π) (button : Fin 3) : Option (Game π) :=
  match button.val with
  | 0 =>
    let g := g.setStage .GameStage
    let g := { g with player := π.playerReset g.player }
    some { g with cars := π.carsReset g.cars }
  | 1 => some (g.setStage .StatisticsStage)
  | _ => none

/-- The `Action` closures of the three buttons of the pause menu built in `NewGame`:
"Continue game", "Go back to the main menu", "Exit" (`os.Exit(0)`, the process ends). -/
def Game.menuAction {π : Parts} (g : Game π) (button : Fin 3) : Option (Game π) :=
  match button.val with
  | 0 => some (g.setStage .GameStage)
  | 1 => some (g.setStage .MainMenuStage)
  | _ => none

/-- The handler registered by `AddPressedEvent(ebiten.KeyEnter, ...)`. A failing `Load` or
`Save` runs `log.Fatalf`, which ends the process (`none`). -/
def Game.pressedEnter {π : Parts} (g : Game π) : Option (Game π) :=
  match g.stage with
  | .GameStage => some g
  | .GameOverStage =>
    let g := { g with player := π.playerReset g.player }
    let g := { g with cars := π.carsReset g.cars }
    some (g.setStage .GameStage)
  | .MainMenuStage =>
    match π.menuClick g.mainMenu with
    | (m, none) => some { g with mainMenu := m }
    | (m, some button) => Game.mainMenuAction { g with mainMenu := m } button
  | .MenuStage =>
    match π.menuClick g.menu with
    | (m, none) => some { g with menu := m }
    | (m, some button) => Game.menuAction { g with menu := m } button
  | .StatisticsStage => some (g.setStage .MainMenuStage)
  | .SetPlayerRecordStage =>
    let g := { g with player := π.playerSetName (π.textText g.textField) g.player }
    match π.load g.statisticer with
    | none => none
    | some records =>
      let resultRecords := (preparePlayerRatingsWith π.sortSlice records
        (π.playerName g.player) (π.playerPoints g.player)).1
      match π.save resultRecords g.statisticer with
      | none => none
      | some statisticer => some (Game.setStage { g with statisticer := statisticer }
          .StatisticsStage)

/-- The eight handlers registered by `addEvents`, named after the registration call
(`AddPressEvent` or `AddPressedEvent`) and the key. -/
inductive Handler where
  | pressRight
  | pressLeft
  | pressUp
  | pressedUp
  | pressDown
  | pressedDown
  | pressEscape
  | pressedEnter
deriving DecidableEq, Repr

/-- One handler invocation. -/
def Game.handle {π : Parts} (g : Game π) : Handler → Option (Game π)
  | .pressRight => some g.pressRight
  | .pressLeft => some g.pressLeft
  | .pressUp => some g.pressUp
  | .pressedUp => some g.pressedUp
  | .pressDown => some g.pressDown
  | .pressedDown => some g.pressedDown
  | .pressEscape => some g.pressEscape
  | .pressedEnter => g.pressedEnter

/-- Modelled from the spec: package `eventmanager` is not among the sources. The call
`game.eventManager.Update()` invokes registered handlers one after the other; `fired` is the
sequence of handlers it invokes during this call. -/
def Game.dispatch {π : Parts} (g : Game π) : List Handler → Option (Game π)
  | [] => some g
  | h :: rest =>
    match g.handle h with
    | none => none
    | some g => g.dispatch rest

/-- Modelled from the spec: which handlers the event manager invokes for a key state (4.1): a
handler registered with `AddPressEvent` fires while its key is down, one registered with
`AddPressedEvent` fires when its key is down and was up at the previous call; the handlers run
in a fixed order, here the order of registration in `addEvents`. -/
def firedHandlers (down previous : Key → Bool) : List Handler :=
  (if down .KeyRight then [Handler.pressRight] else []) ++
  (if down .KeyLeft then [Handler.pressLeft] else []) ++
  (if down .KeyUp then [Handler.pressUp] else []) ++
  (if down .KeyUp && !previous .KeyUp then [Handler.pressedUp] else []) ++
  (if down .KeyDown then [Handler.pressDown] else []) ++
  (if down .KeyDown && !previous .KeyDown then [Handler.pressedDown] else []) ++
  (if down .KeyEscape then [Handler.pressEscape] else []) ++
  (if down .KeyEnter && !previous .KeyEnter then [Handler.pressedEnter] else [])

/-- What one call of `Game.Update` receives from outside: the handlers the event manager fires,
the clock read by `time.Since` and by `time.Now` (nanoseconds), the random draws for the cars
and the characters typed into the text field. -/
structure Tick where
  fired : List Handler
  sinceClock : Int
  nowClock : Int
  draws : Nat → Fin 400 × Fin 5
  typed : String

/-- The constant `time.Second/time.Duration(64)`, in nanoseconds. -/
def tickInterval : Int := 1000000000 / 64

/-- The method `Game.Update`; `none` when the process ends inside the call. -/
def Game.Update {π : Parts} (g : Game π) (t : Tick) : Option (Game π) :=
  match g.dispatch t.fired with
  | none => none
  | some g =>
    if t.sinceClock - g.globalTime < tickInterval then
      some g
    else if g.stage = .SetPlayerRecordStage then
      match π.textUpdate t.typed (π.textFocus g.textField) with
      | none => none
      | some textField => some { g with textField := textField }
    else if g.stage ≠ .GameStage then
      some g
    else if π.carsCollision g.cars (π.playerRectangle g.player) then
      let g := g.setStage .GameOverStage
      match π.load g.statisticer with
      | none => none
      | some records =>
        let isRecord := (preparePlayerRatingsWith π.sortSlice records
          (π.playerName g.player) (π.playerPoints g.player)).2
        if !isRecord then
          some g
        else
          some (g.setStage .SetPlayerRecordStage)
    else
      let g := { g with globalTime := t.nowClock }
      let g := { g with background := π.backgroundUpdate g.scrollSpeed g.background }
      let g := { g with player := π.playerUpdate g.player }
      some { g with cars := π.carsUpdate (g.scrollSpeed - 3) t.draws g.cars }

/-- A handler that calls `player.Move`. -/
def Handler.isMovement : Handler → Bool
  | .pressRight => true
  | .pressLeft => true
  | .pressUp => true
  | .pressDown => true
  | _ => false

/-! ### One instance of the collaborators, used for the examples -/

/-- Modelled from the spec: package `player` is not among the sources. The player vehicle is a
bounding rectangle with accumulated points and a display name. -/
structure Player extends Rectangle where
  points : Int
  name : String
deriving DecidableEq

/-- Modelled from the spec: the collision test of package `rectangle`, the standard overlap
test of two axis-aligned boxes (both axis projections intersect). -/
def Rectangle.overlaps (a b : Rectangle) : Bool :=
  decide (a.X < b.X + b.Width) && decide (b.X < a.X + a.Width) &&
    decide (a.Y < b.Y + b.Height) && decide (b.Y < a.Y + a.Height)

/-- Modelled from the spec: `player.Move(key)` shifts the player rectangle one step in the
direction of the key. The length of the step is not in the sources; 10 stands for it. -/
def Player.Move (key : Key) (p : Player) : Player :=
  match key with
  | .KeyRight => { p with X := p.X + 10 }
  | .KeyLeft => { p with X := p.X - 10 }
  | .KeyUp => { p with Y := p.Y - 10 }
  | .KeyDown => { p with Y := p.Y + 10 }
  | _ => p

/-- Modelled from the spec: an instance of the collaborators of game.go. The car pool is a list
of cars (`advance`, `collides` and `reset` of 4.3, over `Car.Update` and `Car.Reset` of
car.go), the player moves by `Player.Move` and gains a point per gameplay tick, a menu is the
index of its active button, the text field is its text, and the statisticer is the stored
list, whose `load` and `save` succeed. -/
def demoParts : Parts where
  Player := Player
  Cars := List Car
  Background := ℚ
  Menu := Fin 3
  TextField := String
  Statisticer := List Record
  playerRectangle := fun p => p.toRectangle
  playerMove := Player.Move
  playerUpdate := fun p => { p with points := p.points + 1 }
  playerReset := fun p => { p with points := 0 }
  playerName := fun p => p.name
  playerSetName := fun n p => { p with name := n }
  playerPoints := fun p => p.points
  carsCollision := fun cars r => cars.any (fun car => car.toRectangle.overlaps r)
  carsUpdate := fun speed draws cars =>
    cars.enum.map (fun ic => ic.2.Update speed (draws ic.1).1 (draws ic.1).2)
  carsReset := fun cars => cars.map Car.Reset
  backgroundUpdate := fun speed offset => offset + speed
  menuBefore := fun m => if m = 0 then 2 else m - 1
  menuNext := fun m => if m = 2 then 0 else m + 1
  menuClick := fun m => (m, some m)
  textFocus := fun t => t
  textUpdate := fun typed t => some (t ++ typed)
  textText := fun t => t
  load := fun stored => some stored
  save := fun records _ => some records
  sortSlice := insertionSort_func

/-- A game in the Playing stage, last gameplay tick at clock 0, with one car that overlaps the
player and an empty stored leaderboard. -/
def sampleGame : Game demoParts :=
  { width := 1920, height := 1080, globalTime := 0, scrollSpeed := 20,
    player := { X := 900, Y := 800, Width := 110, Height := 200, points := 42, name := "" },
    background := (0 : ℚ),
    cars := [{ sampleCar with Y := 700 }],
    stage := .GameStage,
    mainMenu := (0 : Fin 3), menu := (0 : Fin 3),
    statisticer := ([] : List Record),
    textField := "ann",
    stageWrites := 0 }

/-- A call made one second after the last gameplay tick of `sampleGame`, no key down. -/
def lateTick : Tick :=
  { fired := firedHandlers (fun _ => false) (fun _ => false), sinceClock := 1000000000,
    nowClock := 1000000001, draws := fun _ => (0, 0), typed := "" }

/-! ## Theorems -/

theorem isRecordLoop_iff (p : Int) (records : List Record) :
    isRecordLoop p records = true ↔ ∃ r ∈ records, p > r.Points := by
  induction records with
  | nil => simp [isRecordLoop]
  | cons r rs ih =>
    unfold isRecordLoop
    by_cases h : p > r.Points
    · simp [h]
    · simp only [h, if_false, ih, List.mem_cons, exists_eq_or_imp, false_or]

theorem insertLeft_perm {α : Type} (less : α → α → Bool) (x : α) (l : List α) :
    (insertLeft less x l).Perm (x :: l) := by
  induction l with
  | nil => simp [insertLeft]
  | cons y ys ih =>
    unfold insertLeft
    by_cases h : less x y = true
    · simp only [h, if_true]
      exact (ih.cons y).trans (List.Perm.swap x y ys)
    · simp only [h]
      exact List.Perm.refl _

theorem foldl_insertLeft_perm {α : Type} (less : α → α → Bool) (data acc : List α) :
    (data.foldl (fun done x => insertLeft less x done) acc).Perm (data ++ acc) := by
  induction data generalizing acc with
  | nil => simp
  | cons x xs ih =>
    simp only [List.foldl_cons, List.cons_append]
    refine (ih _).trans ?_
    refine (List.Perm.append_left xs (insertLeft_perm less x acc)).trans ?_
    exact List.perm_middle

theorem insertionSort_func_perm {α : Type} (less : α → α → Bool) (data : List α) :
    (insertionSort_func less data).Perm data := by
  unfold insertionSort_func
  refine (List.reverse_perm _).trans ?_
  simpa using foldl_insertLeft_perm less data []

theorem insertLeft_sorted (x : Record) (l : List Record)
    (h : l.Pairwise (fun a b => a.Points ≤ b.Points)) :
    (insertLeft lessByPoints x l).Pairwise (fun a b => a.Points ≤ b.Points) := by
  induction l with
  | nil => simp [insertLeft]
  | cons y ys ih =>
    unfold insertLeft
    rw [List.pairwise_cons] at h
    by_cases hxy : x.Points > y.Points
    · have hl : lessByPoints x y = true := by simp [lessByPoints, hxy]
      rw [if_pos hl, List.pairwise_cons]
      refine ⟨?_, ih h.2⟩
      intro b hb
      rcases List.mem_cons.mp ((insertLeft_perm lessByPoints x ys).subset hb) with hb | hb
      · subst hb; omega
      · exact h.1 b hb
    · have hl : ¬ (lessByPoints x y = true) := by simp [lessByPoints, hxy]
      rw [if_neg hl, List.pairwise_cons]
      refine ⟨?_, List.pairwise_cons.mpr h⟩
      intro b hb
      rcases List.mem_cons.mp hb with hb | hb
      · subst hb; omega
      · have := h.1 b hb; omega

theorem foldl_insertLeft_sorted (data acc : List Record)
    (h : acc.Pairwise (fun a b => a.Points ≤ b.Points)) :
    (data.foldl (fun done x => insertLeft lessByPoints x done) acc).Pairwise
      (fun a b => a.Points ≤ b.Points) := by
  induction data generalizing acc with
  | nil => simpa using h
  | cons x xs ih =>
    simp only [List.foldl_cons]
    exact ih _ (insertLeft_sorted x acc h)

theorem insertionSort_func_sorted (data : List Record) :
    SortedByPoints (insertionSort_func lessByPoints data) := by
  unfold SortedByPoints insertionSort_func
  rw [List.pairwise_reverse]
  exact foldl_insertLeft_sorted data [] List.Pairwise.nil

/-- The admission test in closed form. -/
theorem preparePlayerRatingsWith_snd
    (sortSlice : (Record → Record → Bool) → List Record → List Record)
    (records : List Record) (name : String) (pts : Int) :
    (preparePlayerRatingsWith sortSlice records name pts).2 = true ↔
      (records = [] ∨ records.length < 10 ∨ ∃ r ∈ records, pts > r.Points) := by
  unfold preparePlayerRatingsWith
  by_cases h0 : records.length = 0
  · have : records = [] := List.length_eq_zero.mp h0
    simp [this]
  · have hne : records ≠ [] := fun h => h0 (by simp [h])
    by_cases h10 : records.length < 10
    · simp [h0, h10]
    · cases hl : isRecordLoop pts records with
      | true =>
        have := (isRecordLoop_iff pts records).mp hl
        simp [h0, h10, hl, this]
      | false =>
        have hn : ¬ ∃ r ∈ records, pts > r.Points := by
          intro hex
          have := (isRecordLoop_iff pts records).mpr hex
          rw [hl] at this
          exact Bool.noConfusion this
        simp only [h0, h10, hl, hne, hn, if_false, Bool.not_false, if_true, or_self]
        simp

/-- On the admitted path the returned list is the sorted extended list cut to ten entries. -/
theorem preparePlayerRatings_fst_of_admitted (records : List Record) (name : String) (pts : Int)
    (h : (preparePlayerRatings records name pts).2 = true) :
    (preparePlayerRatings records name pts).1 =
      (insertionSort_func lessByPoints (records ++ [NewRecord name pts])).take 10 := by
  unfold preparePlayerRatings preparePlayerRatingsWith at h ⊢
  by_cases h0 : records.length = 0
  · have : records = [] := List.length_eq_zero.mp h0
    subst this
    simp [insertionSort_func, insertLeft]
  · simp only [h0, if_false] at h ⊢
    generalize (if records.length < 10 then true else isRecordLoop pts records) = b at h ⊢
    cases b with
    | false => simp at h
    | true =>
      simp only [Bool.not_true, Bool.false_eq_true, if_false]
      split
      · rfl
      · rw [List.take_of_length_le (by omega)]

/-- On the rejected path the input list is returned as it is. -/
theorem preparePlayerRatings_fst_of_rejected (records : List Record) (name : String) (pts : Int)
    (h : (preparePlayerRatings records name pts).2 = false) :
    (preparePlayerRatings records name pts).1 = records := by
  unfold preparePlayerRatings preparePlayerRatingsWith at h ⊢
  by_cases h0 : records.length = 0
  · simp [h0] at h
  · simp only [h0, if_false] at h ⊢
    generalize (if records.length < 10 then true else isRecordLoop pts records) = b at h ⊢
    cases b with
    | false => simp
    | true => simp at h

/-- A list of eleven entries is its first ten entries followed by one last entry. -/
theorem eleven_split {α : Type} (l : List α) (h : l.length = 11) :
    ∃ e, l = l.take 10 ++ [e] := by
  have hd : (l.drop 10).length = 1 := by simp [h]
  obtain ⟨e, he⟩ := List.length_eq_one.mp hd
  exact ⟨e, by rw [← he, List.take_append_drop]⟩

/-- Shape of the sorted extended list when the leaderboard is full and the candidate beats some
record: the entry cut off is an old record of minimal points, and the new record survives. -/
theorem full_insert_shape (records : List Record) (name : String) (pts : Int)
    (hlen : records.length = 10) (hq : ∃ r ∈ records, pts > r.Points) :
    ∃ e, insertionSort_func lessByPoints (records ++ [NewRecord name pts]) =
        (insertionSort_func lessByPoints (records ++ [NewRecord name pts])).take 10 ++ [e] ∧
      e ∈ records ∧ (∀ r ∈ records, e.Points ≤ r.Points) ∧
      NewRecord name pts ∈
        (insertionSort_func lessByPoints (records ++ [NewRecord name pts])).take 10 := by
  have hperm := insertionSort_func_perm lessByPoints (records ++ [NewRecord name pts])
  have hsorted := insertionSort_func_sorted (records ++ [NewRecord name pts])
  have hl : (insertionSort_func lessByPoints (records ++ [NewRecord name pts])).length = 11 := by
    rw [hperm.length_eq]; simp [hlen]
  obtain ⟨e, he⟩ := eleven_split _ hl
  generalize insertionSort_func lessByPoints (records ++ [NewRecord name pts]) = S at *
  have hmin : ∀ r ∈ S, e.Points ≤ r.Points := by
    intro r hr
    rw [he] at hr hsorted
    unfold SortedByPoints at hsorted
    rw [List.pairwise_append] at hsorted
    rcases List.mem_append.mp hr with hr | hr
    · exact hsorted.2.2 r hr e (by simp)
    · simp at hr; subst hr; exact le_refl _
  have hsub : ∀ r ∈ records, r ∈ S := fun r hr =>
    hperm.symm.subset (List.mem_append_left _ hr)
  obtain ⟨r0, hr0, hlt⟩ := hq
  have hene : e ≠ NewRecord name pts := by
    intro h
    have := hmin r0 (hsub r0 hr0)
    rw [h] at this
    simp only [NewRecord] at this
    omega
  have heS : e ∈ S := by rw [he]; simp
  have hnewS : NewRecord name pts ∈ S := hperm.symm.subset (by simp)
  refine ⟨e, he, ?_, fun r hr => hmin r (hsub r hr), ?_⟩
  · rcases List.mem_append.mp (hperm.subset heS) with h | h
    · exact h
    · simp at h; exact absurd h hene
  · rw [he] at hnewS
    rcases List.mem_append.mp hnewS with h | h
    · exact h
    · simp at h; exact absurd h.symm hene

/-! ### Leaderboard claims -/

/-- Claim C1. For every list of records, every player name and every candidate points value
(and whatever routine does the sorting), the boolean returned by `preparePlayerRatings` is true
exactly when the list is empty, or has fewer than ten entries, or holds a record with strictly
fewer points than the candidate. In particular: the empty list admits 0 points; nine records all
above 1000 admit 1 point; ten records whose lowest points value is 500 reject 499 points. -/
theorem preparePlayerRatings_admits_iff
    (sortSlice : (Record → Record → Bool) → List Record → List Record) (name : String) :
    (∀ (records : List Record) (pts : Int),
        (preparePlayerRatingsWith sortSlice records name pts).2 = true ↔
          (records = [] ∨ records.length < 10 ∨ ∃ r ∈ records, pts > r.Points)) ∧
      (∀ (records : List Record) (pts : Int),
        (preparePlayerRatings records name pts).2 = true ↔
          (records = [] ∨ records.length < 10 ∨ ∃ r ∈ records, pts > r.Points)) ∧
      (preparePlayerRatingsWith sortSlice [] name 0).2 = true ∧
      (∀ records : List Record, records.length = 9 → (∀ r ∈ records, r.Points > 1000) →
        (preparePlayerRatingsWith sortSlice records name 1).2 = true) ∧
      (∀ records : List Record, records.length = 10 → (∀ r ∈ records, r.Points ≥ 500) →
        (preparePlayerRatingsWith sortSlice records name 499).2 = false) := by
  refine ⟨fun records pts => preparePlayerRatingsWith_snd sortSlice records name pts,
    fun records pts => preparePlayerRatingsWith_snd _ records name pts, ?_, ?_, ?_⟩
  · exact (preparePlayerRatingsWith_snd sortSlice [] name 0).mpr (Or.inl rfl)
  · intro records h9 _
    exact (preparePlayerRatingsWith_snd sortSlice records name 1).mpr (Or.inr (Or.inl (by omega)))
  · intro records h10 hall
    have hn : ¬ ((preparePlayerRatingsWith sortSlice records name 499).2 = true) := by
      rw [preparePlayerRatingsWith_snd]
      rintro (h | h | ⟨r, hr, hlt⟩)
      · rw [h] at h10; simp at h10
      · omega
      · have := hall r hr; omega
    simpa using hn

/-- Claim C2. For a list of exactly ten records and a candidate whose points are strictly
greater than the points of some record, the list returned by `preparePlayerRatings` has exactly
ten entries, is in non-increasing order of points, contains the new record, and is a
rearrangement of the ten old records and the new record with one old record of minimal points
(the previous minimum) taken out; the call reports admission. -/
theorem preparePlayerRatings_full_insert (records : List Record) (name : String) (pts : Int)
    (hlen : records.length = 10) (hq : ∃ r ∈ records, pts > r.Points) :
    (preparePlayerRatings records name pts).2 = true ∧
      (preparePlayerRatings records name pts).1.length = 10 ∧
      SortedByPoints (preparePlayerRatings records name pts).1 ∧
      NewRecord name pts ∈ (preparePlayerRatings records name pts).1 ∧
      ∃ evicted ∈ records, (∀ r ∈ records, evicted.Points ≤ r.Points) ∧
        ((preparePlayerRatings records name pts).1 ++ [evicted]).Perm
          (records ++ [NewRecord name pts]) := by
  have hadm : (preparePlayerRatings records name pts).2 = true :=
    (preparePlayerRatingsWith_snd _ records name pts).mpr (Or.inr (Or.inr hq))
  rw [preparePlayerRatings_fst_of_admitted records name pts hadm]
  obtain ⟨e, he, hmem, hmin, hnew⟩ := full_insert_shape records name pts hlen hq
  have hperm := insertionSort_func_perm lessByPoints (records ++ [NewRecord name pts])
  have hsorted := insertionSort_func_sorted (records ++ [NewRecord name pts])
  refine ⟨hadm, ?_, ?_, hnew, e, hmem, hmin, ?_⟩
  · rw [List.length_take, hperm.length_eq]; simp [hlen]
  · exact List.Pairwise.sublist (List.take_sublist _ _) hsorted
  · rw [← he]; exact hperm

/-- Witness for claim C2: ten records with points 100, 90, ..., 10 and the candidate
(`"zed"`, 55). -/
theorem preparePlayerRatings_full_insert_witness :
    (sampleFull.length = 10 ∧ ∃ r ∈ sampleFull, (55 : Int) > r.Points) ∧
      ((preparePlayerRatings sampleFull "zed" 55).2 = true ∧
        (preparePlayerRatings sampleFull "zed" 55).1.length = 10 ∧
        SortedByPoints (preparePlayerRatings sampleFull "zed" 55).1 ∧
        NewRecord "zed" 55 ∈ (preparePlayerRatings sampleFull "zed" 55).1 ∧
        ∃ evicted ∈ sampleFull, (∀ r ∈ sampleFull, evicted.Points ≤ r.Points) ∧
          ((preparePlayerRatings sampleFull "zed" 55).1 ++ [evicted]).Perm
            (sampleFull ++ [NewRecord "zed" 55])) :=
  ⟨⟨by decide, ⟨NewRecord "j" 10, by decide, by decide⟩⟩,
    preparePlayerRatings_full_insert sampleFull "zed" 55 (by decide)
      ⟨NewRecord "j" 10, by decide, by decide⟩⟩

/-- Claim C3. `preparePlayerRatings` preserves the leaderboard invariant: from a list of at most
ten records in non-increasing order of points it returns, whether the candidate is admitted or
rejected, a list of at most ten records in non-increasing order of points. -/
theorem preparePlayerRatings_preserves_invariant (records : List Record) (name : String)
    (pts : Int) (hlen : records.length ≤ 10) (hsorted : SortedByPoints records) :
    (preparePlayerRatings records name pts).1.length ≤ 10 ∧
      SortedByPoints (preparePlayerRatings records name pts).1 := by
  cases hadm : (preparePlayerRatings records name pts).2 with
  | true =>
    rw [preparePlayerRatings_fst_of_admitted records name pts hadm]
    refine ⟨?_, ?_⟩
    · rw [List.length_take]; omega
    · exact List.Pairwise.sublist (List.take_sublist _ _)
        (insertionSort_func_sorted (records ++ [NewRecord name pts]))
  | false =>
    rw [preparePlayerRatings_fst_of_rejected records name pts hadm]
    exact ⟨hlen, hsorted⟩

/-- Witness for claim C3: the full sample leaderboard and a rejected candidate. -/
theorem preparePlayerRatings_preserves_invariant_witness :
    (sampleFull.length ≤ 10 ∧ SortedByPoints sampleFull) ∧
      ((preparePlayerRatings sampleFull "zed" 5).1.length ≤ 10 ∧
        SortedByPoints (preparePlayerRatings sampleFull "zed" 5).1) :=
  ⟨⟨by decide, by decide⟩,
    preparePlayerRatings_preserves_invariant sampleFull "zed" 5 (by decide) (by decide)⟩

/-- Claim C9. For every list of at most ten records and every candidate that
`preparePlayerRatings` admits, the returned list contains a record with exactly the candidate's
name and points (the cut to ten entries never removes it); when the candidate is not admitted
the returned list is the input list unchanged. Admission does not depend on the name, so a
player admitted under one name (at the collision) is admitted, and then listed, under the name
entered afterwards. -/
theorem preparePlayerRatings_admitted_listed (records : List Record) (name : String)
    (pts : Int) (hlen : records.length ≤ 10) :
    ((preparePlayerRatings records name pts).2 = true →
        ∃ r ∈ (preparePlayerRatings records name pts).1, r.Name = name ∧ r.Points = pts) ∧
      ((preparePlayerRatings records name pts).2 = false →
        (preparePlayerRatings records name pts).1 = records) ∧
      (∀ entered : String,
        (preparePlayerRatings records entered pts).2 =
          (preparePlayerRatings records name pts).2) := by
  refine ⟨?_, preparePlayerRatings_fst_of_rejected records name pts, ?_⟩
  · intro hadm
    refine ⟨NewRecord name pts, ?_, rfl, rfl⟩
    rw [preparePlayerRatings_fst_of_admitted records name pts hadm]
    by_cases h10 : records.length = 10
    · have hq : ∃ r ∈ records, pts > r.Points := by
        rcases (preparePlayerRatingsWith_snd _ records name pts).mp hadm with h | h | h
        · rw [h] at h10; simp at h10
        · omega
        · exact h
      obtain ⟨_, _, _, _, hnew⟩ := full_insert_shape records name pts h10 hq
      exact hnew
    · have hperm := insertionSort_func_perm lessByPoints (records ++ [NewRecord name pts])
      rw [List.take_of_length_le (by rw [hperm.length_eq]; simp; omega)]
      exact hperm.symm.subset (by simp)
  · intro entered
    rw [Bool.eq_iff_iff, preparePlayerRatings, preparePlayerRatingsWith_snd,
      preparePlayerRatings, preparePlayerRatingsWith_snd]

/-- Witness for claim C9: the full sample leaderboard admits (`"zed"`, 55) and lists it. -/
theorem preparePlayerRatings_admitted_listed_witness :
    sampleFull.length ≤ 10 ∧ (preparePlayerRatings sampleFull "zed" 55).2 = true ∧
      (∃ r ∈ (preparePlayerRatings sampleFull "zed" 55).1, r.Name = "zed" ∧ r.Points = 55) ∧
      (preparePlayerRatings sampleFull "zed" 5).1 = sampleFull :=
  have h := preparePlayerRatings_admitted_listed sampleFull "zed" 55 (by decide)
  ⟨by decide, by decide, h.1 (by decide),
    (preparePlayerRatings_admitted_listed sampleFull "zed" 5 (by decide)).2.1 (by decide)⟩

/-! ### Traffic car claims -/

theorem Game.pressedEnter_frame {π : Parts} (g g1 : Game π) (h : g.pressedEnter = some g1) :
    g1.globalTime = g.globalTime ∧ g1.background = g.background ∧
      (g1.cars = g.cars ∨ g1.cars = π.carsReset g.cars) ∧
      g1.stageWrites ≤ g.stageWrites + 1 := by
  unfold Game.pressedEnter at h
  split at h
  · cases h; simp
  · cases h; simp [Game.setStage]
  · split at h
    · cases h; simp
    · rename_i m button _
      unfold Game.mainMenuAction at h
      split at h
      · cases h; simp [Game.setStage]
      · cases h; simp [Game.setStage]
      · cases h
  · split at h
    · cases h; simp
    · rename_i m button _
      unfold Game.menuAction at h
      split at h
      · cases h; simp [Game.setStage]
      · cases h; simp [Game.setStage]
      · cases h
  · cases h; simp [Game.setStage]
  · simp only at h
    split at h
    · cases h
    · split at h
      · cases h
      · cases h; simp [Game.setStage]

theorem Game.handle_frame {π : Parts} (g g1 : Game π) (hd : Handler) (h : g.handle hd = some g1) :
    g1.globalTime = g.globalTime ∧ g1.background = g.background ∧
      (g1.cars = g.cars ∨ g1.cars = π.carsReset g.cars) ∧
      (hd ≠ Handler.pressedEnter → g1.cars = g.cars) ∧
      (hd ≠ Handler.pressedEnter → hd.isMovement = false → g1.player = g.player) := by
  cases hd
  case pressedEnter =>
    obtain ⟨h1, h2, h3, _⟩ := Game.pressedEnter_frame g g1 h
    exact ⟨h1, h2, h3, fun hne => absurd rfl hne, fun hne => absurd rfl hne⟩
  all_goals
    simp only [Game.handle, Option.some.injEq] at h
    subst h
    first
    | (unfold Game.pressRight; split <;> (try split) <;> simp [Handler.isMovement])
    | (unfold Game.pressLeft; split <;> (try split) <;> simp [Handler.isMovement])
    | (unfold Game.pressUp; split <;> (try split) <;> simp [Handler.isMovement])
    | (unfold Game.pressDown; split <;> (try split) <;> simp [Handler.isMovement])
    | (unfold Game.pressedUp; split <;> simp [Handler.isMovement])
    | (unfold Game.pressedDown; split <;> simp [Handler.isMovement])
    | (unfold Game.pressEscape; split <;> simp [Handler.isMovement, Game.setStage])

theorem Game.dispatch_frame {π : Parts} (fired : List Handler) (g g1 : Game π)
    (h : g.dispatch fired = some g1) :
    g1.globalTime = g.globalTime ∧ g1.background = g.background ∧
      (∃ n : Nat, g1.cars = (π.carsReset)^[n] g.cars) ∧
      (Handler.pressedEnter ∉ fired → g1.cars = g.cars) ∧
      (Handler.pressedEnter ∉ fired → (∀ hd ∈ fired, hd.isMovement = false) →
        g1.player = g.player) := by
  induction fired generalizing g with
  | nil =>
    simp only [Game.dispatch, Option.some.injEq] at h
    subst h
    exact ⟨rfl, rfl, ⟨0, rfl⟩, fun _ => rfl, fun _ _ => rfl⟩
  | cons hd rest ih =>
    unfold Game.dispatch at h
    split at h
    · cases h
    · rename_i g' hg'
      obtain ⟨a1, a2, a3, a4, a5⟩ := Game.handle_frame g g' hd hg'
      obtain ⟨b1, b2, ⟨n, b3⟩, b4, b5⟩ := ih g' h
      refine ⟨b1.trans a1, b2.trans a2, ?_, ?_, ?_⟩
      · rcases a3 with a3 | a3
        · exact ⟨n, by rw [b3, a3]⟩
        · exact ⟨n + 1, by rw [b3, a3, Function.iterate_succ_apply]⟩
      · intro hne
        rw [List.mem_cons, not_or] at hne
        rw [b4 hne.2, a4 (fun e => hne.1 e.symm)]
      · intro hne hmv
        rw [List.mem_cons, not_or] at hne
        rw [b5 hne.2 (fun x hx => hmv x (List.mem_cons_of_mem _ hx)),
          a5 (fun e => hne.1 e.symm) (hmv hd (List.mem_cons_self _ _))]

/-- Claim C7. Collision transition: in every `Game.Update` call that is not gated and reaches
the collision test (so the stage is Playing once the handlers have run) with a collision
detected and the records loaded, the stage after the call is EnterName
(`SetPlayerRecordStage`) if `preparePlayerRatings` admits the player's points into the loaded
records and GameOver (`GameOverStage`) otherwise; so a qualifying score never leaves the game
in GameOver. The traffic cars, the background, the clock and the player are not advanced on
that call: they are as the handlers left them. -/
theorem Game.Update_collision {π : Parts} (g g1 : Game π) (t : Tick) (records : List Record)
    (hd : g.dispatch t.fired = some g1)
    (hungated : ¬ (t.sinceClock - g.globalTime < tickInterval))
    (hstage : g1.stage = Stage.GameStage)
    (hcol : π.carsCollision g1.cars (π.playerRectangle g1.player) = true)
    (hload : π.load g1.statisticer = some records) :
    ∃ g2, g.Update t = some g2 ∧
      g2.stage =
        (if (preparePlayerRatings records (π.playerName g1.player)
              (π.playerPoints g1.player)).2 = true
          then Stage.SetPlayerRecordStage else Stage.GameOverStage) ∧
      ((preparePlayerRatings records (π.playerName g1.player)
          (π.playerPoints g1.player)).2 = true → g2.stage ≠ Stage.GameOverStage) ∧
      g2.cars = g1.cars ∧ g2.background = g.background ∧ g2.globalTime = g.globalTime ∧
      g2.player = g1.player := by
  obtain ⟨a1, a2, _, _, _⟩ := Game.dispatch_frame t.fired g g1 hd
  have hsame : (preparePlayerRatingsWith π.sortSlice records (π.playerName g1.player)
        (π.playerPoints g1.player)).2 =
      (preparePlayerRatings records (π.playerName g1.player) (π.playerPoints g1.player)).2 := by
    rw [Bool.eq_iff_iff, preparePlayerRatingsWith_snd, preparePlayerRatings,
      preparePlayerRatingsWith_snd]
  have hng : ¬ (t.sinceClock - g1.globalTime < tickInterval) := by rw [a1]; exact hungated
  unfold Game.Update
  simp only [hd, hng, if_false, hstage, ne_eq, not_true_eq_false, hcol, if_true,
    Game.setStage, hload, hsame, reduceCtorEq]
  cases hadm : (preparePlayerRatings records (π.playerName g1.player)
      (π.playerPoints g1.player)).2 with
  | true =>
    refine ⟨_, rfl, ?_⟩
    simp [a1, a2]
  | false =>
    refine ⟨_, rfl, ?_⟩
    simp [a1, a2]

/-- Witness for claim C7: the sample game, whose car overlaps the player, called one second
after its last gameplay tick with no key down; the stored leaderboard is empty, so the 42
points are admitted and the stage becomes EnterName. -/
theorem Game.Update_collision_witness :
    (sampleGame.dispatch lateTick.fired = some sampleGame ∧
      ¬ (lateTick.sinceClock - sampleGame.globalTime < tickInterval) ∧
      sampleGame.stage = Stage.GameStage ∧
      demoParts.carsCollision sampleGame.cars (demoParts.playerRectangle sampleGame.player)
        = true ∧
      demoParts.load sampleGame.statisticer = some []) ∧
    ∃ g2, sampleGame.Update lateTick = some g2 ∧
      g2.stage =
        (if (preparePlayerRatings [] (demoParts.playerName sampleGame.player)
              (demoParts.playerPoints sampleGame.player)).2 = true
          then Stage.SetPlayerRecordStage else Stage.GameOverStage) ∧
      ((preparePlayerRatings [] (demoParts.playerName sampleGame.player)
          (demoParts.playerPoints sampleGame.player)).2 = true →
        g2.stage ≠ Stage.GameOverStage) ∧
      g2.cars = sampleGame.cars ∧ g2.background = sampleGame.background ∧
      g2.globalTime = sampleGame.globalTime ∧ g2.player = sampleGame.player :=
  have hcol : demoParts.carsCollision sampleGame.cars
      (demoParts.playerRectangle sampleGame.player) = true := by
    simp only [demoParts, sampleGame, sampleCar, Rectangle.overlaps, List.any_cons,
      List.any_nil]
    norm_num
  ⟨⟨rfl, by decide, rfl, hcol, rfl⟩,
    Game.Update_collision sampleGame sampleGame lateTick [] rfl (by decide) rfl hcol rfl⟩

/-- Claim C8. Key-driven stage transitions. The Escape handler maps Playing (`GameStage`) to
PauseMenu (`MenuStage`) and Leaderboard (`StatisticsStage`) to MainMenu (`MainMenuStage`) and
leaves the game as it is in every other stage. The Enter handler maps GameOver to Playing,
Leaderboard to MainMenu and, when `Load` and `Save` succeed, EnterName
(`SetPlayerRecordStage`) to Leaderboard (it never leaves EnterName for another stage: the only
other outcome is the fatal exit on a failed `Load` or `Save`), and leaves the game as it is in
Playing. Each invocation of either handler assigns the stage at most once. -/
theorem Game.key_transitions {π : Parts} (g : Game π) :
    (g.stage = Stage.GameStage → g.pressEscape.stage = Stage.MenuStage) ∧
      (g.stage = Stage.StatisticsStage → g.pressEscape.stage = Stage.MainMenuStage) ∧
      (g.stage ≠ Stage.GameStage → g.stage ≠ Stage.StatisticsStage → g.pressEscape = g) ∧
      g.pressEscape.stageWrites ≤ g.stageWrites + 1 ∧
      (g.stage = Stage.GameOverStage →
        ∃ g1, g.pressedEnter = some g1 ∧ g1.stage = Stage.GameStage) ∧
      (g.stage = Stage.StatisticsStage →
        ∃ g1, g.pressedEnter = some g1 ∧ g1.stage = Stage.MainMenuStage) ∧
      (g.stage = Stage.GameStage → g.pressedEnter = some g) ∧
      (g.stage = Stage.SetPlayerRecordStage →
        ∀ (records : List Record) (stored : π.Statisticer),
          π.load g.statisticer = some records →
          π.save (preparePlayerRatingsWith π.sortSlice records
              (π.playerName (π.playerSetName (π.textText g.textField) g.player))
              (π.playerPoints (π.playerSetName (π.textText g.textField) g.player))).1
            g.statisticer = some stored →
          ∃ g1, g.pressedEnter = some g1 ∧ g1.stage = Stage.StatisticsStage ∧
            g1.statisticer = stored) ∧
      (g.stage = Stage.SetPlayerRecordStage →
        ∀ g1, g.pressedEnter = some g1 → g1.stage = Stage.StatisticsStage) ∧
      (∀ g1, g.pressedEnter = some g1 → g1.stageWrites ≤ g.stageWrites + 1) := by
  refine ⟨?_, ?_, ?_, ?_, ?_, ?_, ?_, ?_, ?_, ?_⟩
  · intro hs
    unfold Game.pressEscape
    rw [hs]
    rfl
  · intro hs
    unfold Game.pressEscape
    rw [hs]
    rfl
  · intro h1 h2
    unfold Game.pressEscape
    split
    · rename_i hs; exact absurd hs h1
    · rename_i hs; exact absurd hs h2
    · rfl
  · unfold Game.pressEscape
    split <;> simp [Game.setStage]
  · intro hs
    unfold Game.pressedEnter
    rw [hs]
    exact ⟨_, rfl, rfl⟩
  · intro hs
    unfold Game.pressedEnter
    rw [hs]
    exact ⟨_, rfl, rfl⟩
  · intro hs
    unfold Game.pressedEnter
    rw [hs]
  · intro hs records stored hload hsave
    unfold Game.pressedEnter
    rw [hs]
    simp only [hload, hsave]
    exact ⟨_, rfl, rfl, rfl⟩
  · intro hs g1 h1
    unfold Game.pressedEnter at h1
    rw [hs] at h1
    simp only at h1
    split at h1
    · cases h1
    · split at h1
      · cases h1
      · cases h1; rfl
  · intro g1 h1
    exact (Game.pressedEnter_frame g g1 h1).2.2.2

/-- Witness for claim C8: the sample game put in the EnterName stage; Enter stores the record
(`"ann"`, 42) and moves to the Leaderboard stage. -/
theorem Game.key_transitions_witness :
    (Game.pressedEnter { sampleGame with stage := Stage.SetPlayerRecordStage }).map
        (fun g => (g.stage, g.statisticer)) =
      some (Stage.StatisticsStage, [NewRecord "ann" 42]) ∧
    (Game.pressEscape sampleGame).stage = Stage.MenuStage ∧
    ∀ g1, Game.pressedEnter { sampleGame with stage := Stage.SetPlayerRecordStage } = some g1 →
      g1.stageWrites ≤ 0 + 1 :=
  ⟨rfl, rfl,
    (Game.key_transitions { sampleGame with stage := Stage.SetPlayerRecordStage }).2.2.2.2.2.2.2.2.2⟩

end Racer
